import Mathlib

/-!
Verification of the command-line argument assembly layer of the buck2 build
engine (`app/buck2_build_api/src/interpreter/rule_defs/cmd_args/mod.rs`).

The file embeds, as executable Lean definitions:

* the mutable capability dispatcher `ValueAsCommandLineLike::as_command_line`
  and its strict companion `as_command_line_err`;
* the frozen capability dispatcher
  `ValueAsFrozenCommandLineLike::as_frozen_command_line`;
* the `cmd_args` registration entry point, with the quote-style parsing it
  performs at construction time;
* the resolution (builder/renderer) algorithm, modelled from the spec since
  the `builder`, `options` and `typ` submodules are outside the excerpt.

Theorems about these definitions follow after all definitions.
-/

namespace CmdArgs

/-! ### Value kinds appearing in the dispatchers

Each Rust type that the dispatchers downcast to is modelled as a small
structure carrying an identifying payload. -/

/-- The `RunInfo` provider (a nestable command fragment). -/
structure RunInfo where
  id : Nat
deriving DecidableEq, Repr

/-- The frozen `RunInfo` provider. -/
structure FrozenRunInfo where
  id : Nat
deriving DecidableEq, Repr

/-- A path relative to a named root (`LabelRelativePath`). -/
structure LabelRelativePath where
  path : String
deriving DecidableEq, Repr

/-- A build-target label (`StarlarkTargetLabel`). -/
structure StarlarkTargetLabel where
  label : String
deriving DecidableEq, Repr

/-- A build artifact value (`StarlarkArtifact`). -/
structure StarlarkArtifact where
  id : Nat
deriving DecidableEq, Repr

/-- A frozen output-artifact wrapper (`FrozenStarlarkOutputArtifact`). -/
structure FrozenStarlarkOutputArtifact where
  id : Nat
deriving DecidableEq, Repr

/-- A macro-substituted string (`ResolvedStringWithMacros`). -/
structure ResolvedStringWithMacros where
  text : String
deriving DecidableEq, Repr

/-- A frozen command-line value (`FrozenStarlarkCommandLine`); its contents are
irrelevant to dispatch, so it is identified abstractly. -/
structure FrozenStarlarkCommandLine where
  id : Nat
deriving DecidableEq, Repr

/-- A frozen dependency-set projection (`FrozenTransitiveSetArgsProjection`). -/
structure FrozenTransitiveSetArgsProjection where
  id : Nat
deriving DecidableEq, Repr

/-- The handle obtained from the mutable dispatcher: the value itself viewed
through the `CommandLineArgLike` trait.  The constructor records which trait
implementation produced the handle.  `provided` is a handle obtained through
`StarlarkValue::provide`, i.e. through the `request_value` extension point. -/
inductive CommandLineArgLike where
  | ofStr (s : String)
  | ofRunInfo (r : RunInfo)
  | ofFrozenRunInfo (r : FrozenRunInfo)
  | ofLabelRelativePath (p : LabelRelativePath)
  | ofTargetLabel (l : StarlarkTargetLabel)
  | provided (id : Nat)
deriving DecidableEq, Repr

/-- The concrete runtime kind of a Starlark `Value`.  A value has exactly one
concrete type, so at most one of the downcasts in the dispatcher can succeed;
kinds not relevant to any specific check (integers, `None`, other types) are
the final three constructors. -/
inductive ValueKind where
  | str (s : String)
  | runInfo (r : RunInfo)
  | frozenRunInfo (r : FrozenRunInfo)
  | labelRelativePath (p : LabelRelativePath)
  | targetLabel (l : StarlarkTargetLabel)
  | int (n : Int)
  | noneV
  | other (tag : String)
deriving DecidableEq, Repr

/-- A Starlark `Value` as the dispatcher observes it: its concrete kind, the
answer `request_value::<&dyn CommandLineArgLike>()` would give (the open
extension point any value type may opt into), and its textual representation
`to_repr`. -/
structure Value where
  kind : ValueKind
  providedArgLike : Option CommandLineArgLike
  repr : String
deriving DecidableEq, Repr

/-- `Value::unpack_starlark_str`. -/
def Value.unpack_starlark_str (v : Value) : Option String :=
  match v.kind with
  | .str s => some s
  | _ => none

/-- `Value::downcast_ref::<RunInfo>`. -/
def Value.downcast_RunInfo (v : Value) : Option RunInfo :=
  match v.kind with
  | .runInfo r => some r
  | _ => none

/-- `Value::downcast_ref::<FrozenRunInfo>`. -/
def Value.downcast_FrozenRunInfo (v : Value) : Option FrozenRunInfo :=
  match v.kind with
  | .frozenRunInfo r => some r
  | _ => none

/-- `Value::downcast_ref::<LabelRelativePath>`. -/
def Value.downcast_LabelRelativePath (v : Value) : Option LabelRelativePath :=
  match v.kind with
  | .labelRelativePath p => some p
  | _ => none

/-- `Value::downcast_ref::<StarlarkTargetLabel>`. -/
def Value.downcast_StarlarkTargetLabel (v : Value) : Option StarlarkTargetLabel :=
  match v.kind with
  | .targetLabel l => some l
  | _ => none

/-- `Value::request_value::<&dyn CommandLineArgLike>`: the open extension
point, answered by the value's own `provide` implementation. -/
def Value.request_value (v : Value) : Option CommandLineArgLike :=
  v.providedArgLike

/-- `Value::to_repr`. -/
def Value.to_repr (v : Value) : String :=
  v.repr

/-- The error enum `CommandLineArgError` of `mod.rs`. -/
inductive CommandLineArgError where
  | InvalidItemType (repr : String)
deriving DecidableEq, Repr

/-- `ValueAsCommandLineLike::as_command_line` for `Value`: unpack as a
Starlark string first, then the four explicit downcast checks in source
order (`RunInfo`, `FrozenRunInfo`, `LabelRelativePath`,
`StarlarkTargetLabel`), and finally `request_value` on the value itself. -/
def as_command_line (v : Value) : Option CommandLineArgLike :=
  match v.unpack_starlark_str with
  | some x => some (.ofStr x)
  | none =>
    match v.downcast_RunInfo with
    | some r => some (.ofRunInfo r)
    | none =>
      match v.downcast_FrozenRunInfo with
      | some r => some (.ofFrozenRunInfo r)
      | none =>
        match v.downcast_LabelRelativePath with
        | some p => some (.ofLabelRelativePath p)
        | none =>
          match v.downcast_StarlarkTargetLabel with
          | some l => some (.ofTargetLabel l)
          | none => v.request_value

/-- `ValueAsCommandLineLike::as_command_line_err`: the strict accessor,
`as_command_line().ok_or_else(InvalidItemType { repr: to_repr() })`. -/
def as_command_line_err (v : Value) : Except CommandLineArgError CommandLineArgLike :=
  match as_command_line v with
  | some x => .ok x
  | none => .error (.InvalidItemType v.to_repr)

/-! ### The frozen dispatcher -/

/-- The concrete runtime kind of a `FrozenValue`.  The first eight
constructors are the kinds the frozen dispatcher checks; the rest are kinds
it does not cover (notably a frozen `StarlarkTargetLabel`). -/
inductive FrozenValueKind where
  | str (s : String)
  | frozenCommandLine (c : FrozenStarlarkCommandLine)
  | artifact (a : StarlarkArtifact)
  | outputArtifact (a : FrozenStarlarkOutputArtifact)
  | resolvedMacros (m : ResolvedStringWithMacros)
  | frozenRunInfo (r : FrozenRunInfo)
  | labelRelativePath (p : LabelRelativePath)
  | transitiveSetArgsProjection (p : FrozenTransitiveSetArgsProjection)
  | targetLabel (l : StarlarkTargetLabel)
  | int (n : Int)
  | other (tag : String)
deriving DecidableEq, Repr

/-- A frozen Starlark value as the frozen dispatcher observes it.  Like any
value it has a `provide` answer available through `request_value`, but the
frozen dispatcher's source never consults it. -/
structure FrozenValue where
  kind : FrozenValueKind
  providedArgLike : Option CommandLineArgLike
deriving DecidableEq, Repr

/-- The handle obtained from the frozen dispatcher: the frozen value viewed
through the `FrozenCommandLineArgLike` trait. -/
inductive FrozenCommandLineArgLike where
  | ofStr (s : String)
  | ofFrozenCommandLine (c : FrozenStarlarkCommandLine)
  | ofArtifact (a : StarlarkArtifact)
  | ofOutputArtifact (a : FrozenStarlarkOutputArtifact)
  | ofResolvedMacros (m : ResolvedStringWithMacros)
  | ofFrozenRunInfo (r : FrozenRunInfo)
  | ofLabelRelativePath (p : LabelRelativePath)
  | ofTransitiveSetArgsProjection (p : FrozenTransitiveSetArgsProjection)
deriving DecidableEq, Repr

/-- `FrozenValue::downcast_frozen_starlark_str`. -/
def FrozenValue.downcast_frozen_starlark_str (v : FrozenValue) : Option String :=
  match v.kind with
  | .str s => some s
  | _ => none

/-- `FrozenValue::downcast_frozen_ref::<FrozenStarlarkCommandLine>`. -/
def FrozenValue.downcast_FrozenStarlarkCommandLine (v : FrozenValue) :
    Option FrozenStarlarkCommandLine :=
  match v.kind with
  | .frozenCommandLine c => some c
  | _ => none

/-- `FrozenValue::downcast_frozen_ref::<StarlarkArtifact>`. -/
def FrozenValue.downcast_StarlarkArtifact (v : FrozenValue) : Option StarlarkArtifact :=
  match v.kind with
  | .artifact a => some a
  | _ => none

/-- `FrozenValue::downcast_frozen_ref::<FrozenStarlarkOutputArtifact>`. -/
def FrozenValue.downcast_FrozenStarlarkOutputArtifact (v : FrozenValue) :
    Option FrozenStarlarkOutputArtifact :=
  match v.kind with
  | .outputArtifact a => some a
  | _ => none

/-- `FrozenValue::downcast_frozen_ref::<ResolvedStringWithMacros>`. -/
def FrozenValue.downcast_ResolvedStringWithMacros (v : FrozenValue) :
    Option ResolvedStringWithMacros :=
  match v.kind with
  | .resolvedMacros m => some m
  | _ => none

/-- `FrozenValue::downcast_frozen_ref::<FrozenRunInfo>`. -/
def FrozenValue.downcast_FrozenRunInfo (v : FrozenValue) : Option FrozenRunInfo :=
  match v.kind with
  | .frozenRunInfo r => some r
  | _ => none

/-- `FrozenValue::downcast_frozen_ref::<LabelRelativePath>`. -/
def FrozenValue.downcast_LabelRelativePath (v : FrozenValue) : Option LabelRelativePath :=
  match v.kind with
  | .labelRelativePath p => some p
  | _ => none

/-- `FrozenValue::downcast_frozen_ref::<FrozenTransitiveSetArgsProjection>`. -/
def FrozenValue.downcast_FrozenTransitiveSetArgsProjection (v : FrozenValue) :
    Option FrozenTransitiveSetArgsProjection :=
  match v.kind with
  | .transitiveSetArgsProjection p => some p
  | _ => none

/-- `ValueAsFrozenCommandLineLike::as_frozen_command_line` for `FrozenValue`:
the frozen string unpack followed by seven downcast checks in source order,
ending in `None`.  There is no `request_value` fallback and no error type. -/
def as_frozen_command_line (v : FrozenValue) : Option FrozenCommandLineArgLike :=
  match v.downcast_frozen_starlark_str with
  | some s => some (.ofStr s)
  | none =>
    match v.downcast_FrozenStarlarkCommandLine with
    | some c => some (.ofFrozenCommandLine c)
    | none =>
      match v.downcast_StarlarkArtifact with
      | some a => some (.ofArtifact a)
      | none =>
        match v.downcast_FrozenStarlarkOutputArtifact with
        | some a => some (.ofOutputArtifact a)
        | none =>
          match v.downcast_ResolvedStringWithMacros with
          | some m => some (.ofResolvedMacros m)
          | none =>
            match v.downcast_FrozenRunInfo with
            | some r => some (.ofFrozenRunInfo r)
            | none =>
              match v.downcast_LabelRelativePath with
              | some p => some (.ofLabelRelativePath p)
              | none =>
                match v.downcast_FrozenTransitiveSetArgsProjection with
                | some p => some (.ofTransitiveSetArgsProjection p)
                | none => none

/-- Whether a frozen kind is one of the eight kinds the frozen dispatcher
covers. -/
def coveredFrozenKind : FrozenValueKind → Bool
  | .str _ => true
  | .frozenCommandLine _ => true
  | .artifact _ => true
  | .outputArtifact _ => true
  | .resolvedMacros _ => true
  | .frozenRunInfo _ => true
  | .labelRelativePath _ => true
  | .transitiveSetArgsProjection _ => true
  | .targetLabel _ => false
  | .int _ => false
  | .other _ => false

/-! ### The registration surface: `cmd_args`

`register_cmd_args::cmd_args` parses the optional `quote` string through
`gazebo`'s `Option::try_map` with `QuoteStyle::parse` and only then hands
everything to `StarlarkCommandLine::try_from_values_with_options`.
`QuoteStyle` and the constructor body live in the `options` and `typ`
submodules, which are outside the excerpt, so they are modelled from the
spec. -/

/-- Modelled from the spec: the `QuoteStyle` enumeration of the `options`
submodule (not in the excerpt).  The spec gives the styles as
`{None, Shell}` with absence of quoting represented by leaving `quote`
unset, so the parsed style itself has the single constructor `shell`. -/
inductive QuoteStyle where
  | shell
deriving DecidableEq, Repr

/-- The error raised by the `cmd_args` constructor path. -/
inductive CmdArgsCtorError where
  | unknownQuoteStyle (s : String)
deriving DecidableEq, Repr

/-- Modelled from the spec: `QuoteStyle::parse` of the `options` submodule
(not in the excerpt).  The only recognized quoting mode string is
`"shell"`; any other string is a parse failure. -/
def QuoteStyle.parse (s : String) : Except CmdArgsCtorError QuoteStyle :=
  if s = "shell" then .ok .shell else .error (.unknownQuoteStyle s)

/-- A mutable `StarlarkCommandLine` as produced by the constructor: the raw
item values plus the four rendering options. -/
structure StarlarkCommandLine where
  items : List Value
  delimiter : Option String
  format : Option String
  prepend : Option String
  quote : Option QuoteStyle
deriving DecidableEq, Repr

/-- Modelled from the spec:
`StarlarkCommandLine::try_from_values_with_options` of the `typ` submodule
(not in the excerpt).  Per the spec, construction stores the items and the
already-parsed options; item validation through the capability dispatch may
be deferred to use time. -/
def try_from_values_with_options (args : List Value) (delimiter : Option String)
    (format : Option String) (prepend : Option String) (quote : Option QuoteStyle) :
    Except CmdArgsCtorError StarlarkCommandLine :=
  .ok ⟨args, delimiter, format, prepend, quote⟩

/-- `gazebo`'s `Option::try_map`, as used on the `quote` argument:
`None` stays `None`, `Some s` applies the fallible parse. -/
def try_map_quote (quote : Option String) : Except CmdArgsCtorError (Option QuoteStyle) :=
  match quote with
  | none => .ok none
  | some s =>
    match QuoteStyle.parse s with
    | .ok q => .ok (some q)
    | .error e => .error e

/-- `register_cmd_args::cmd_args`: parse `quote` first (the `?` operator
propagates its failure before construction proceeds), then build the value. -/
def cmd_args (args : List Value) (delimiter : Option String) (format : Option String)
    (prepend : Option String) (quote : Option String) :
    Except CmdArgsCtorError StarlarkCommandLine :=
  match try_map_quote quote with
  | .error e => .error e
  | .ok q => try_from_values_with_options args delimiter format prepend q

/-! ### The builder/renderer

The `builder` and `options` submodules are outside the excerpt; the whole
resolution algorithm below is modelled from the spec, following §3 (data
model), §4.4 (the seven-step algorithm) and §4.5 (the resolution context).
Argument items and item sequences form a mutual inductive so that the
recursive cases (nested command lines, implicit lists, set projections) are
genuine recursive structure. -/

/-- Modelled from the spec: the Resolution Context (§4.5), a read-only
mapping from artifact identity to the concrete path string to emit; the
path-separator convention is part of how `pathFor` renders the path. -/
structure ResolutionContext where
  pathFor : Nat → String

/-- Modelled from the spec: the per-item rendering options of a
Command-Line Value (§3): `format`, `delimiter`, `prepend`, `quote`. -/
structure CmdOptions where
  delimiter : Option String
  format : Option String
  prepend : Option String
  quote : Option QuoteStyle
deriving DecidableEq, Repr

mutual
/-- Modelled from the spec: the Argument Item tagged union (§3), with the
implicit-list case of the design notes as a recursive constructor. -/
inductive ArgItem where
  | literal (s : String)
  | artifact (id : Nat)
  | label (t : String)
  | list (elems : ArgList)
  | setProjection (elems : ArgList)
  | nested (items : ArgList) (opts : CmdOptions)
deriving DecidableEq, Repr
/-- An ordered sequence of Argument Items. -/
inductive ArgList where
  | nil
  | cons (head : ArgItem) (tail : ArgList)
deriving DecidableEq, Repr
end

/-- Number of items in an `ArgList`. -/
def ArgList.length : ArgList → Nat
  | .nil => 0
  | .cons _ tail => tail.length + 1

/-- Concatenation of two `ArgList`s. -/
def ArgList.append : ArgList → ArgList → ArgList
  | .nil, ys => ys
  | .cons x xs, ys => .cons x (ArgList.append xs ys)

/-- Modelled from the spec: a Command-Line Value (§3), an ordered item
sequence plus the rendering options. -/
structure CommandLineValue where
  items : ArgList
  opts : CmdOptions
deriving DecidableEq, Repr

/-- The single-quote character, used by the shell-quoting policy. -/
def squoteChar : Char := Char.ofNat 39

/-- The single-quote character as a string. -/
def squote : String := String.singleton squoteChar

/-- Modelled from the spec: the Quote Policy for `Shell` (§3, design
notes): wrap the string in single quotes, escaping each embedded single
quote by closing, emitting an escaped quote, and reopening. -/
def shellQuote (s : String) : String :=
  squote ++ s.replace squote (squote ++ "\\" ++ squote ++ squote) ++ squote

/-- The format template's single substitution point, written `\x7b\x7d`. -/
def formatPlaceholder : String := "\x7b\x7d"

/-- Modelled from the spec: step 3 of §4.4 — apply the `format` template, if
set, by substituting the rendered string at the template's substitution
point. -/
def applyFormat (format : Option String) (s : String) : String :=
  match format with
  | none => s
  | some tpl => tpl.replace formatPlaceholder s

/-- Modelled from the spec: steps 3–6 of §4.4 applied to one item's raw
expansion — format each string, join with `delimiter` when set (one argument
for the item), emit `prepend` as a standalone argument immediately before
each produced argument, and shell-quote every emitted argument last. -/
def postProcess (opts : CmdOptions) (raw : List String) : List String :=
  let formatted := raw.map (applyFormat opts.format)
  let delimited :=
    match opts.delimiter with
    | some d => [String.intercalate d formatted]
    | none => formatted
  let prepended :=
    match opts.prepend with
    | some p => delimited.flatMap (fun a => [p, a])
    | none => delimited
  match opts.quote with
  | some .shell => prepended.map shellQuote
  | none => prepended

mutual
/-- Modelled from the spec: step 2 of §4.4 — expand one item into its raw
strings: a literal yields itself, an artifact its resolved path, a label its
textual identity, a list or set projection the concatenation of its
elements' expansions in order, and a nested command line the full result of
resolving it. -/
def expandItem (ctx : ResolutionContext) : ArgItem → List String
  | .literal s => [s]
  | .artifact id => [ctx.pathFor id]
  | .label t => [t]
  | .list elems => expandList ctx elems
  | .setProjection elems => expandList ctx elems
  | .nested items opts => resolveList ctx opts items
/-- Raw expansion of an item sequence, in order. -/
def expandList (ctx : ResolutionContext) : ArgList → List String
  | .nil => []
  | .cons i rest => expandItem ctx i ++ expandList ctx rest
/-- Modelled from the spec: steps 1–7 of §4.4 — resolve each item in
insertion order, post-processing its expansion with the options, and
concatenate the per-item results. -/
def resolveList (ctx : ResolutionContext) (opts : CmdOptions) : ArgList → List String
  | .nil => []
  | .cons i rest => postProcess opts (expandItem ctx i) ++ resolveList ctx opts rest
end

/-- Modelled from the spec: the Builder/Renderer entry point (§4.4): resolve
a Command-Line Value against a Resolution Context. -/
def resolve (ctx : ResolutionContext) (v : CommandLineValue) : List String :=
  resolveList ctx v.opts v.items

mutual
/-- The artifact identities an item reads from the Resolution Context. -/
def itemArtifacts : ArgItem → List Nat
  | .literal _ => []
  | .artifact id => [id]
  | .label _ => []
  | .list elems => listArtifacts elems
  | .setProjection elems => listArtifacts elems
  | .nested items _ => listArtifacts items
/-- The artifact identities of all items of a sequence. -/
def listArtifacts : ArgList → List Nat
  | .nil => []
  | .cons i rest => itemArtifacts i ++ listArtifacts rest
end

/-- The artifact identities a Command-Line Value reads during resolution. -/
def cmdArtifacts (v : CommandLineValue) : List Nat :=
  listArtifacts v.items

/-! ### Helper lemmas -/

/-- Applying an absent format template is the identity. -/
theorem applyFormat_none (s : String) : applyFormat none s = s :=
  rfl

/-- Post-processing with no options set is the identity. -/
theorem postProcess_plain (raw : List String) :
    postProcess ⟨none, none, none, none⟩ raw = raw := by
  have hmap : ∀ l : List String, l.map (applyFormat none) = l := by
    intro l
    induction l with
    | nil => rfl
    | cons s rest ih => simp [applyFormat_none, ih]
  simpa [postProcess] using hmap raw

/-- Post-processing with only `format` set maps the template over the raw
strings. -/
theorem postProcess_format_only (f : Option String) (raw : List String) :
    postProcess ⟨none, f, none, none⟩ raw = raw.map (applyFormat f) :=
  rfl

/-- With `delimiter` set and `prepend` unset, an item's post-processed
rendering is exactly one argument whatever `quote` is. -/
theorem postProcess_delim_length (d : String) (f : Option String)
    (q : Option QuoteStyle) (raw : List String) :
    (postProcess ⟨some d, f, none, q⟩ raw).length = 1 := by
  cases q with
  | none => rfl
  | some q => cases q; rfl

/-- With `delimiter` unset, `prepend` set and `quote` unset, an item's
post-processed rendering inserts the prepend token before each formatted
string. -/
theorem postProcess_prepend (f : Option String) (p : String) (raw : List String) :
    postProcess ⟨none, f, some p, none⟩ raw =
      raw.flatMap (fun s => [p, applyFormat f s]) := by
  induction raw with
  | nil => rfl
  | cons s rest ih =>
    simp only [postProcess, List.map_cons, List.flatMap_cons] at ih ⊢
    simpa using congrArg (List.cons p ∘ List.cons (applyFormat f s)) ih

mutual
/-- Expansion of an item reads the context only at the item's artifact
identities. -/
theorem expandItem_congr (c1 c2 : ResolutionContext) (i : ArgItem)
    (h : ∀ a ∈ itemArtifacts i, c1.pathFor a = c2.pathFor a) :
    expandItem c1 i = expandItem c2 i := by
  cases i with
  | literal s => rfl
  | artifact id =>
    simp only [expandItem]
    rw [h id (by simp [itemArtifacts])]
  | label t => rfl
  | list elems =>
    simp only [expandItem]
    exact expandList_congr c1 c2 elems (fun a ha => h a (by simpa [itemArtifacts] using ha))
  | setProjection elems =>
    simp only [expandItem]
    exact expandList_congr c1 c2 elems (fun a ha => h a (by simpa [itemArtifacts] using ha))
  | nested items opts =>
    simp only [expandItem]
    exact resolveList_congr c1 c2 opts items
      (fun a ha => h a (by simpa [itemArtifacts] using ha))
/-- Expansion of an item sequence reads the context only at the sequence's
artifact identities. -/
theorem expandList_congr (c1 c2 : ResolutionContext) (l : ArgList)
    (h : ∀ a ∈ listArtifacts l, c1.pathFor a = c2.pathFor a) :
    expandList c1 l = expandList c2 l := by
  cases l with
  | nil => rfl
  | cons i rest =>
    simp only [expandList]
    rw [expandItem_congr c1 c2 i
        (fun a ha => h a (by simp only [listArtifacts, List.mem_append]; exact Or.inl ha)),
      expandList_congr c1 c2 rest
        (fun a ha => h a (by simp only [listArtifacts, List.mem_append]; exact Or.inr ha))]
/-- Resolution of an item sequence reads the context only at the sequence's
artifact identities. -/
theorem resolveList_congr (c1 c2 : ResolutionContext) (opts : CmdOptions) (l : ArgList)
    (h : ∀ a ∈ listArtifacts l, c1.pathFor a = c2.pathFor a) :
    resolveList c1 opts l = resolveList c2 opts l := by
  cases l with
  | nil => rfl
  | cons i rest =>
    simp only [resolveList]
    rw [expandItem_congr c1 c2 i
        (fun a ha => h a (by simp only [listArtifacts, List.mem_append]; exact Or.inl ha)),
      resolveList_congr c1 c2 opts rest
        (fun a ha => h a (by simp only [listArtifacts, List.mem_append]; exact Or.inr ha))]
end

/-- With `delimiter` set and `prepend` unset, resolution yields exactly one
argument per item. -/
theorem resolveList_delim_length (ctx : ResolutionContext) (d : String)
    (f : Option String) (q : Option QuoteStyle) :
    ∀ items : ArgList,
      (resolveList ctx ⟨some d, f, none, q⟩ items).length = items.length
  | .nil => rfl
  | .cons i rest => by
    simp only [resolveList, List.length_append, postProcess_delim_length,
      ArgList.length, resolveList_delim_length ctx d f q rest]
    omega

/-- With only `format` set, resolution maps the template over the expansion. -/
theorem resolveList_format_map (ctx : ResolutionContext) (f : Option String) :
    ∀ items : ArgList,
      resolveList ctx ⟨none, f, none, none⟩ items
        = (expandList ctx items).map (applyFormat f)
  | .nil => rfl
  | .cons i rest => by
    simp only [resolveList, expandList, List.map_append,
      resolveList_format_map ctx f rest, postProcess_format_only]

/-- With `delimiter` unset, `prepend` set and `quote` unset, resolution
emits the prepend token before each formatted string of the expansion. -/
theorem resolveList_prepend_flatMap (ctx : ResolutionContext) (f : Option String)
    (p : String) :
    ∀ items : ArgList,
      resolveList ctx ⟨none, f, some p, none⟩ items
        = (expandList ctx items).flatMap (fun s => [p, applyFormat f s])
  | .nil => rfl
  | .cons i rest => by
    simp only [resolveList, expandList, List.flatMap_append,
      resolveList_prepend_flatMap ctx f p rest, postProcess_prepend]

/-- Resolution distributes over concatenation of item sequences. -/
theorem resolveList_append_hom (ctx : ResolutionContext) (opts : CmdOptions) :
    ∀ xs ys : ArgList,
      resolveList ctx opts (ArgList.append xs ys)
        = resolveList ctx opts xs ++ resolveList ctx opts ys
  | .nil, ys => by simp [ArgList.append, resolveList]
  | .cons i rest, ys => by
    simp only [ArgList.append, resolveList,
      resolveList_append_hom ctx opts rest ys, List.append_assoc]

/-- With no modifiers set, resolution is exactly the raw expansion. -/
theorem resolveList_plain (ctx : ResolutionContext) :
    ∀ items : ArgList,
      resolveList ctx ⟨none, none, none, none⟩ items = expandList ctx items
  | .nil => rfl
  | .cons i rest => by
    simp only [resolveList, expandList, resolveList_plain ctx rest, postProcess_plain]

/-! ### Claim theorems -/

/-- C1: a value that is not a Starlark string, none of the four
specially-checked kinds, and does not itself provide the argument-like
capability (so in particular is no recognized list of such values) makes the
strict accessor fail with `InvalidItemType` carrying the value's `repr`;
the value is never coerced to text. -/
theorem invalid_item_type_never_coerced :
    (∀ (n : Int) (r : String),
        as_command_line_err ⟨.int n, none, r⟩ = .error (.InvalidItemType r))
    ∧ (∀ r : String,
        as_command_line_err ⟨.noneV, none, r⟩ = .error (.InvalidItemType r))
    ∧ (∀ t r : String,
        as_command_line_err ⟨.other t, none, r⟩ = .error (.InvalidItemType r)) :=
  ⟨fun _ _ => rfl, fun _ => rfl, fun _ _ => rfl⟩

/-- C2: the strict and lenient accessors agree on every value:
`as_command_line_err` returns `Ok` with a handle exactly when
`as_command_line` returns `Some` with that same handle, and returns the
`InvalidItemType` error exactly when `as_command_line` returns `None`. -/
theorem strict_lenient_accessors_agree :
    ∀ v : Value,
      (∀ h : CommandLineArgLike,
          as_command_line_err v = .ok h ↔ as_command_line v = some h)
      ∧ (as_command_line_err v = .error (.InvalidItemType v.to_repr)
          ↔ as_command_line v = none) := by
  intro v
  constructor
  · intro h
    unfold as_command_line_err
    cases as_command_line v <;> simp
  · unfold as_command_line_err
    cases as_command_line v <;> simp

/-- C3: the mutable dispatcher handles Starlark strings first, then the
downcasts to `RunInfo`, `FrozenRunInfo`, `LabelRelativePath` and
`StarlarkTargetLabel`, and only a value matching none of these is asked for
the capability itself through `request_value`; the specific kinds win even
when the value would also answer the `request_value` extension point, so a
later fallback never shadows an earlier specific kind. -/
theorem mutable_dispatch_fixed_order :
    (∀ (s : String) (prov : Option CommandLineArgLike) (r : String),
        as_command_line ⟨.str s, prov, r⟩ = some (.ofStr s))
    ∧ (∀ (ri : RunInfo) (prov : Option CommandLineArgLike) (r : String),
        as_command_line ⟨.runInfo ri, prov, r⟩ = some (.ofRunInfo ri))
    ∧ (∀ (fr : FrozenRunInfo) (prov : Option CommandLineArgLike) (r : String),
        as_command_line ⟨.frozenRunInfo fr, prov, r⟩ = some (.ofFrozenRunInfo fr))
    ∧ (∀ (p : LabelRelativePath) (prov : Option CommandLineArgLike) (r : String),
        as_command_line ⟨.labelRelativePath p, prov, r⟩ = some (.ofLabelRelativePath p))
    ∧ (∀ (l : StarlarkTargetLabel) (prov : Option CommandLineArgLike) (r : String),
        as_command_line ⟨.targetLabel l, prov, r⟩ = some (.ofTargetLabel l))
    ∧ (∀ (n : Int) (prov : Option CommandLineArgLike) (r : String),
        as_command_line ⟨.int n, prov, r⟩ = prov)
    ∧ (∀ (prov : Option CommandLineArgLike) (r : String),
        as_command_line ⟨.noneV, prov, r⟩ = prov)
    ∧ (∀ (t : String) (prov : Option CommandLineArgLike) (r : String),
        as_command_line ⟨.other t, prov, r⟩ = prov) := by
  refine ⟨?_, ?_, ?_, ?_, ?_, ?_, ?_, ?_⟩ <;> intros <;> rfl

/-- C4: the frozen dispatcher is total and never errors: its result is
`some` exactly for the eight covered kinds (string, frozen command line,
artifact, frozen output artifact, macro-substituted string, frozen run
info, label-relative path, frozen set projection) and `none` for every
other frozen value. -/
theorem frozen_dispatch_total_covered :
    ∀ v : FrozenValue, (as_frozen_command_line v).isSome = coveredFrozenKind v.kind := by
  intro v
  obtain ⟨k, prov⟩ := v
  cases k <;> rfl

/-- C5: a `quote` argument that is present but not the recognized style
`"shell"` makes the `cmd_args` constructor itself fail with the quote-style
parse error, whatever the items and other options are; a `"shell"` or
absent `quote` lets construction succeed, so the failure is decided at
construction and never deferred to resolution. -/
theorem quote_parse_fails_at_construction :
    (∀ (args : List Value) (d f p : Option String) (s : String), s ≠ "shell" →
        cmd_args args d f p (some s) = .error (.unknownQuoteStyle s))
    ∧ (∀ (args : List Value) (d f p : Option String),
        cmd_args args d f p (some "shell") = .ok ⟨args, d, f, p, some .shell⟩)
    ∧ (∀ (args : List Value) (d f p : Option String),
        cmd_args args d f p none = .ok ⟨args, d, f, p, none⟩) := by
  refine ⟨?_, ?_, ?_⟩
  · intro args d f p s hs
    simp [cmd_args, try_map_quote, QuoteStyle.parse, hs, try_from_values_with_options]
  · intro args d f p
    rfl
  · intro args d f p
    rfl

/-- Witness for C5 at the unrecognized style `"single"`. -/
theorem quote_parse_fails_at_construction_witness :
    "single" ≠ "shell"
    ∧ cmd_args [] none none none (some "single") = .error (.unknownQuoteStyle "single") :=
  ⟨by decide, quote_parse_fails_at_construction.1 [] none none none "single" (by decide)⟩

/-- C6: resolution is deterministic and reads nothing but the context:
resolving the same Command-Line Value against the same Resolution Context
twice yields the identical output, and two contexts that agree on every
artifact identity the value mentions resolve it to the same output. -/
theorem resolution_deterministic :
    (∀ (ctx : ResolutionContext) (v : CommandLineValue), resolve ctx v = resolve ctx v)
    ∧ (∀ (c1 c2 : ResolutionContext) (v : CommandLineValue),
        (∀ a ∈ cmdArtifacts v, c1.pathFor a = c2.pathFor a) →
          resolve c1 v = resolve c2 v) :=
  ⟨fun _ _ => rfl, fun c1 c2 v h => resolveList_congr c1 c2 v.opts v.items h⟩

/-- Witness for C6: one artifact item resolved under two contexts that
agree on that artifact but differ elsewhere. -/
theorem resolution_deterministic_witness :
    (∀ a ∈ cmdArtifacts ⟨.cons (.artifact 0) .nil, ⟨none, none, none, none⟩⟩,
        ResolutionContext.pathFor ⟨fun _ => "out"⟩ a
          = ResolutionContext.pathFor ⟨fun n => if n = 0 then "out" else "x"⟩ a)
    ∧ resolve ⟨fun _ => "out"⟩ ⟨.cons (.artifact 0) .nil, ⟨none, none, none, none⟩⟩
        = resolve ⟨fun n => if n = 0 then "out" else "x"⟩
            ⟨.cons (.artifact 0) .nil, ⟨none, none, none, none⟩⟩ :=
  ⟨by decide,
    resolution_deterministic.2 ⟨fun _ => "out"⟩ ⟨fun n => if n = 0 then "out" else "x"⟩
      ⟨.cons (.artifact 0) .nil, ⟨none, none, none, none⟩⟩ (by decide)⟩

/-- C7: with `delimiter` set, every item's formatted strings are joined into
exactly one argument per item; with `delimiter` absent, each formatted
string is its own argument; in particular a single item holding the list
`["a", "b"]` with an empty delimiter resolves to the one argument `"ab"`. -/
theorem delimiter_joins_items :
    (∀ (ctx : ResolutionContext) (d : String) (f : Option String)
        (q : Option QuoteStyle) (items : ArgList),
        (resolveList ctx ⟨some d, f, none, q⟩ items).length = items.length)
    ∧ (∀ (ctx : ResolutionContext) (f : Option String) (items : ArgList),
        resolveList ctx ⟨none, f, none, none⟩ items
          = (expandList ctx items).map (applyFormat f))
    ∧ resolve ⟨fun n => toString n⟩
        ⟨.cons (.list (.cons (.literal "a") (.cons (.literal "b") .nil))) .nil,
          ⟨some "", none, none, none⟩⟩ = ["ab"] :=
  ⟨fun ctx d f q items => resolveList_delim_length ctx d f q items,
    fun ctx f items => resolveList_format_map ctx f items, rfl⟩

/-- C8: with `prepend` set, the prepend literal is emitted as its own
argument immediately before every argument an item produces — before each
of an item's separate strings when `delimiter` is absent, and before the
joined argument of every item when `delimiter` is set — so an item
expanding to `"a"` and `"b"` with `prepend="-I"` resolves to
`["-I", "a", "-I", "b"]`. -/
theorem prepend_precedes_each_argument :
    (∀ (ctx : ResolutionContext) (f : Option String) (p : String) (items : ArgList),
        resolveList ctx ⟨none, f, some p, none⟩ items
          = (expandList ctx items).flatMap (fun s => [p, applyFormat f s]))
    ∧ (∀ (ctx : ResolutionContext) (d : String) (f : Option String) (p : String)
        (i : ArgItem) (rest : ArgList),
        resolveList ctx ⟨some d, f, some p, none⟩ (.cons i rest)
          = [p, String.intercalate d ((expandItem ctx i).map (applyFormat f))]
              ++ resolveList ctx ⟨some d, f, some p, none⟩ rest)
    ∧ resolve ⟨fun n => toString n⟩
        ⟨.cons (.list (.cons (.literal "a") (.cons (.literal "b") .nil))) .nil,
          ⟨none, none, some "-I", none⟩⟩ = ["-I", "a", "-I", "b"] :=
  ⟨fun ctx f p items => resolveList_prepend_flatMap ctx f p items,
    fun _ _ _ _ _ _ => rfl, rfl⟩

/-- C9: resolution preserves order end-to-end: resolving a concatenation of
item sequences concatenates their resolutions in order (items are processed
in insertion order and never reordered, deduplicated or merged across
items), and with no modifiers set the output is exactly the items'
expansions in expansion order. -/
theorem resolution_preserves_order :
    (∀ (ctx : ResolutionContext) (opts : CmdOptions) (xs ys : ArgList),
        resolveList ctx opts (ArgList.append xs ys)
          = resolveList ctx opts xs ++ resolveList ctx opts ys)
    ∧ (∀ (ctx : ResolutionContext) (items : ArgList),
        resolveList ctx ⟨none, none, none, none⟩ items = expandList ctx items) :=
  ⟨fun ctx opts xs ys => resolveList_append_hom ctx opts xs ys,
    fun ctx items => resolveList_plain ctx items⟩

/-- C10: the mutable and frozen capability sets are asymmetric: a frozen
build-target label is refused by the frozen dispatcher while the mutable
dispatcher accepts target labels; the frozen dispatcher ignores what the
value would itself provide and rejects every kind outside its eight
hard-coded ones. -/
theorem frozen_mutable_capability_asymmetry :
    (∀ (l : StarlarkTargetLabel) (prov : Option CommandLineArgLike),
        as_frozen_command_line ⟨.targetLabel l, prov⟩ = none)
    ∧ (∀ (l : StarlarkTargetLabel) (prov : Option CommandLineArgLike) (r : String),
        as_command_line ⟨.targetLabel l, prov, r⟩ = some (.ofTargetLabel l))
    ∧ (∀ (k : FrozenValueKind) (h : CommandLineArgLike),
        as_frozen_command_line ⟨k, some h⟩ = as_frozen_command_line ⟨k, none⟩)
    ∧ (∀ (n : Int) (prov : Option CommandLineArgLike),
        as_frozen_command_line ⟨.int n, prov⟩ = none)
    ∧ (∀ (t : String) (prov : Option CommandLineArgLike),
        as_frozen_command_line ⟨.other t, prov⟩ = none) := by
  refine ⟨?_, ?_, ?_, ?_, ?_⟩ <;> intros
  · rfl
  · rfl
  · rename_i k h
    cases k <;> rfl
  · rfl
  · rfl

end CmdArgs
